import Mathlib

/-!
# Verification of the PicoClaw process supervisor (`picoclaw_manager.py`)

Shallow embedding of the `PicoClawManager` class.  The manager's mutable
fields (`_process`, `_started_at`, `_log_tail`) become a `ManagerState`
record; every OS interaction (file existence check, `subprocess.Popen`,
`poll`, `os.killpg`, `Popen.wait`, `time.sleep`) is resolved through an
oracle `Env`, and each operation additionally returns the list of OS
actions it performed, in order, so that claims about *which* OS calls
happen (and in what order) can be stated.

Result dictionaries become `OpResult`; the Indonesian message strings are
kept verbatim from the source.
-/

namespace PicoClaw

/-- A `subprocess.Popen` handle; only the pid is relevant to the manager. -/
structure ProcHandle where
  pid : Nat
deriving Repr, DecidableEq

/-- The mutable state of `PicoClawManager`: `picoclaw_bin` (immutable),
`_process`, `_started_at` (an ISO timestamp string) and `_log_tail`. -/
structure ManagerState where
  picoclaw_bin : String
  process : Option ProcHandle
  started_at : Option String
  log_tail : List String
deriving Repr, DecidableEq

/-- State right after `PicoClawManager.__init__`. -/
def initialState (bin : String) : ManagerState :=
  { picoclaw_bin := bin, process := none, started_at := none, log_tail := [] }

/-- The source's `self._max_log_lines = 100`. -/
def max_log_lines : Nat := 100

/-- An OS action performed by an operation, recorded in order.
`pollLive` is the read-only liveness query `Popen.poll()`; the others
mutate or signal processes or block the thread. -/
inductive OSAction where
  | pollLive
  | spawnChild
  | sigtermGroup (pid : Nat)
  | sigkillGroup (pid : Nat)
  | waitChild (timeoutSecs : Nat)
  | sleepMs (ms : Nat)
deriving Repr, DecidableEq

/-- Actions that signal, reap or create a process (everything except the
read-only liveness poll and sleeping). -/
def OSAction.mutating : OSAction → Bool
  | .pollLive => false
  | .sleepMs _ => false
  | _ => true

/-- Oracle fixing the outcome of every OS call an operation may make:
`isfile` is `os.path.isfile(self.picoclaw_bin)`, `liveNow` the result of
the `poll()` made by the operation's precondition check (`true` = still
running, i.e. `poll() is None`), `spawn` the outcome of `subprocess.Popen`,
`now` the value of `datetime.now().isoformat()`, `uptimeOf` the integer
seconds between `now` and a stored timestamp, `term`/`kill` the outcome of
`os.killpg(os.getpgid(pid), SIGTERM/SIGKILL)` (an error models a raised
`OSError`, e.g. from `getpgid`), `pollExit i` the result of the i-th
`poll()` inside the stop grace loop (`true` = exited), and `wait3` the
outcome of `Popen.wait(timeout=3)` (an error models `TimeoutExpired`). -/
structure Env where
  isfile : Bool
  liveNow : Bool
  spawn : Except String ProcHandle
  now : String
  uptimeOf : String → Int
  term : Except String Unit
  pollExit : Nat → Bool
  kill : Except String Unit
  wait3 : Except String Unit

/-- The dictionaries returned by `start`/`stop`/`restart`: `success`,
`message`, and the `pid` key when present. -/
structure OpResult where
  success : Bool
  message : String
  pid : Option Nat
deriving Repr, DecidableEq

/-- The already-running message, `"PicoClaw gateway sudah berjalan"`. -/
def msgAlreadyRunning : String := "PicoClaw gateway sudah berjalan"

/-- The not-running message, `"PicoClaw gateway tidak sedang berjalan"`. -/
def msgNotRunning : String := "PicoClaw gateway tidak sedang berjalan"

/-- The message `f"Binary tidak ditemukan: {self.picoclaw_bin}"`. -/
def msgBinaryNotFound (bin : String) : String :=
  "Binary tidak ditemukan: " ++ bin

/-- The message `"PicoClaw gateway berhasil dijalankan"`. -/
def msgStartOk : String := "PicoClaw gateway berhasil dijalankan"

/-- The message `f"Gagal menjalankan PicoClaw: {str(e)}"`. -/
def msgStartFail (e : String) : String := "Gagal menjalankan PicoClaw: " ++ e

/-- The message `f"PicoClaw gateway berhasil dihentikan (PID: {pid})"`. -/
def msgStopOk (pid : Nat) : String :=
  "PicoClaw gateway berhasil dihentikan (PID: " ++ toString pid ++ ")"

/-- The message `f"Gagal menghentikan process: {str(e)}"`. -/
def msgStopFail (e : String) : String := "Gagal menghentikan process: " ++ e

/-- Output of one operation: updated state, returned dictionary, and the
ordered list of OS actions performed. -/
structure OpOut where
  state : ManagerState
  result : OpResult
  trace : List OSAction
deriving Repr, DecidableEq

/-- Property `is_running`: `False` when `self._process is None`, otherwise the
result of `self._process.poll() is None`. -/
def is_running (s : ManagerState) (live : Bool) : Bool :=
  match s.process with
  | none => false
  | some _ => live

/-- The `status()` dictionary. -/
structure StatusReport where
  running : Bool
  pid : Option Nat
  started_at : Option String
  uptime_seconds : Option Int
  binary : String
  recent_logs : List String
deriving Repr, DecidableEq

/-- Method `PicoClawManager.status` (read-only; mutates no state). `recent_logs`
is `self._log_tail[-20:]`, `pid` is present only when a handle exists and
it is running, `uptime_seconds` only when running with `started_at` set. -/
def status (s : ManagerState) (env : Env) : StatusReport :=
  let running := is_running s env.liveNow
  { running := running
  , pid := match s.process with
           | some h => if running then some h.pid else none
           | none => none
  , started_at := s.started_at
  , uptime_seconds :=
      if running then s.started_at.map env.uptimeOf else none
  , binary := s.picoclaw_bin
  , recent_logs := s.log_tail.drop (s.log_tail.length - 20) }

/-- Method `PicoClawManager._start_process` (caller holds the lock).  The
`isfile` check precedes any state change; `self._log_tail.clear()` runs
inside the `try` before `Popen`, so a spawn failure still leaves the log
cleared while `_process`/`_started_at` keep their prior values. -/
def start_process (s : ManagerState) (env : Env) : OpOut :=
  if env.isfile then
    match env.spawn with
    | .error e =>
        { state := { s with log_tail := [] }
        , result := { success := false, message := msgStartFail e, pid := none }
        , trace := [.spawnChild] }
    | .ok h =>
        { state := { s with process := some h, started_at := some env.now,
                            log_tail := [] }
        , result := { success := true, message := msgStartOk, pid := some h.pid }
        , trace := [.spawnChild] }
  else
    { state := s
    , result := { success := false
                , message := msgBinaryNotFound s.picoclaw_bin, pid := none }
    , trace := [] }

/-- Method `PicoClawManager.start`: under the lock, if a handle exists and its
`poll()` says live, return the already-running result with the existing
pid and no side effect; otherwise fall through to `_start_process`. -/
def start (s : ManagerState) (env : Env) : OpOut :=
  match s.process with
  | some h =>
      if env.liveNow then
        { state := s
        , result := { success := false, message := msgAlreadyRunning
                    , pid := some h.pid }
        , trace := [.pollLive] }
      else
        let o := start_process s env
        { o with trace := .pollLive :: o.trace }
  | none => start_process s env

/-- First iteration index `i < 50` of the grace loop at which `poll()`
reported the child exited, if any (the loop `for _ in range(50)`). -/
def graceExit (env : Env) : Option Nat :=
  (List.range 50).find? env.pollExit

/-- Trace of a grace loop that breaks at iteration `i`: iterations
`0..i-1` each poll then sleep 100ms; iteration `i` polls and breaks. -/
def graceTrace (i : Nat) : List OSAction :=
  (List.replicate i [OSAction.pollLive, OSAction.sleepMs 100]).flatten
    ++ [OSAction.pollLive]

/-- Trace of a grace loop that runs all 50 iterations without breaking. -/
def graceTraceFull : List OSAction :=
  (List.replicate 50 [OSAction.pollLive, OSAction.sleepMs 100]).flatten

/-- Method `PicoClawManager._stop_process` (caller holds the lock; `h` is the
live handle, `pid = self._process.pid`).  SIGTERM goes to the whole
process group; the `for ... else` escalates to SIGKILL plus
`wait(timeout=3)` only when all 50 polls saw the child alive; any raised
`OSError`/`TimeoutExpired` lands in the `except` branch, which leaves the
state untouched and reports failure. -/
def stop_process (s : ManagerState) (env : Env) (h : ProcHandle) : OpOut :=
  match env.term with
  | .error e =>
      { state := s
      , result := { success := false, message := msgStopFail e, pid := none }
      , trace := [.sigtermGroup h.pid] }
  | .ok _ =>
      match graceExit env with
      | some i =>
          { state := { s with process := none, started_at := none }
          , result := { success := true, message := msgStopOk h.pid, pid := none }
          , trace := .sigtermGroup h.pid :: graceTrace i }
      | none =>
          match env.kill with
          | .error e =>
              { state := s
              , result := { success := false, message := msgStopFail e, pid := none }
              , trace := .sigtermGroup h.pid ::
                  graceTraceFull ++ [.sigkillGroup h.pid] }
          | .ok _ =>
              match env.wait3 with
              | .error e =>
                  { state := s
                  , result := { success := false, message := msgStopFail e
                              , pid := none }
                  , trace := .sigtermGroup h.pid :: graceTraceFull
                      ++ [.sigkillGroup h.pid, .waitChild 3] }
              | .ok _ =>
                  { state := { s with process := none, started_at := none }
                  , result := { success := true, message := msgStopOk h.pid
                              , pid := none }
                  , trace := .sigtermGroup h.pid :: graceTraceFull
                      ++ [.sigkillGroup h.pid, .waitChild 3] }

/-- Method `PicoClawManager.stop`: under the lock, if no handle or `poll()` shows
the child exited, return success with the not-running message and touch
nothing; otherwise run `_stop_process`. -/
def stop (s : ManagerState) (env : Env) : OpOut :=
  match s.process with
  | none =>
      { state := s
      , result := { success := true, message := msgNotRunning, pid := none }
      , trace := [] }
  | some h =>
      if env.liveNow then
        let o := stop_process s env h
        { o with trace := .pollLive :: o.trace }
      else
        { state := s
        , result := { success := true, message := msgNotRunning, pid := none }
        , trace := [.pollLive] }

/-- Method `PicoClawManager.restart`: one `with self._lock` spans everything.
When a handle exists and is live, `_stop_process` runs (its result is
discarded) followed by `time.sleep(1)`; in every case `_start_process`
runs and its result is returned. -/
def restart (s : ManagerState) (env : Env) : OpOut :=
  match s.process with
  | some h =>
      if env.liveNow then
        let o1 := stop_process s env h
        let o2 := start_process o1.state env
        { state := o2.state, result := o2.result
        , trace := .pollLive :: o1.trace ++ [.sleepMs 1000] ++ o2.trace }
      else
        let o := start_process s env
        { o with trace := .pollLive :: o.trace }
  | none => start_process s env

/-- One line handled by `PicoClawManager._read_output`: append the decoded
line, then `pop(0)` if the buffer length now exceeds `_max_log_lines`. -/
def read_output_step (buf : List String) (line : String) : List String :=
  let b := buf ++ [line]
  if max_log_lines < b.length then b.drop 1 else b

/-- Loop of `_read_output` over a whole list of decoded lines. -/
def read_output (buf : List String) (lines : List String) : List String :=
  lines.foldl read_output_step buf

/-- A concrete sequence of 150 distinct output lines, used as a witness. -/
def sampleLines : List String := (List.range 150).map (fun i => toString i)

/-- A state some time after a successful start: live handle, pid 4242. -/
def runningState : ManagerState :=
  { picoclaw_bin := "/home/user/.local/bin/picoclaw"
  , process := some ⟨4242⟩
  , started_at := some "2026-10-12T08:00:00"
  , log_tail := ["gateway listening"] }

/-- Oracle where every OS call succeeds and the child exits at grace-loop
iteration 2; a fresh spawn would yield pid 5151. -/
def envGrace : Env :=
  { isfile := true, liveNow := true, spawn := Except.ok ⟨5151⟩
  , now := "2026-10-12T09:00:00", uptimeOf := fun _ => 60
  , term := Except.ok (), pollExit := fun i => 2 ≤ i
  , kill := Except.ok (), wait3 := Except.ok () }

/-- Oracle where the child survives the whole grace window and dies only
to SIGKILL. -/
def envStubborn : Env := { envGrace with pollExit := fun _ => false }

/-- Oracle where the child has already exited externally. -/
def envDead : Env := { envGrace with liveNow := false }

/-- Oracle where the binary path names no existing file. -/
def envNoFile : Env := { envDead with isfile := false }

/-- Oracle where `os.killpg(..., SIGTERM)` raises `EPERM`. -/
def envTermFail : Env := { envStubborn with term := Except.error "EPERM" }

/-- Oracle where even after SIGKILL the 3-second reap wait times out. -/
def envWaitFail : Env :=
  { envStubborn with wait3 := Except.error "timed out after 3 seconds" }

/-- Oracle where the path names an existing (say, non-executable) file, so
the `isfile` check passes, but `Popen` itself raises. -/
def envSpawnFail : Env :=
  { envDead with spawn := Except.error "Permission denied" }

/-- A stopped manager that still holds log lines from an earlier run. -/
def stoppedWithLog : ManagerState :=
  { picoclaw_bin := "/etc/hosts", process := none, started_at := none
  , log_tail := ["old line"] }

/-- One of the four public operations. -/
inductive Op where
  | startOp
  | stopOp
  | restartOp
  | statusOp
deriving Repr, DecidableEq

/-- The state transition an operation performs (`status` mutates
nothing). -/
def applyOp : Op → ManagerState → Env → ManagerState
  | .startOp, s, env => (start s env).state
  | .stopOp, s, env => (stop s env).state
  | .restartOp, s, env => (restart s env).state
  | .statusOp, s, _ => s

/-- States reachable from a fresh manager by any sequence of operations,
each against an arbitrary OS oracle. -/
inductive Reachable (bin : String) : ManagerState → Prop where
  | init : Reachable bin (initialState bin)
  | step (s : ManagerState) (op : Op) (env : Env) :
      Reachable bin s → Reachable bin (applyOp op s env)

/-- Does `pat` occur as a contiguous substring of `hay`? (Positional scan
over the character lists.) -/
def strContains (hay pat : String) : Bool :=
  (List.range (hay.toList.length + 1)).any
    (fun i => ((hay.toList.drop i).take pat.toList.length) == pat.toList)

/-- Fields of the shared supervisor state. -/
inductive SField where
  | handleF
  | startedAtF
  | logBufF
deriving Repr, DecidableEq

/-- A shared-state access or OS liveness query made by a method. -/
inductive Access where
  | readF (f : SField)
  | writeF (f : SField)
  | livePoll
deriving Repr, DecidableEq

/-- An access tagged with whether the method performs it while holding
`self._lock`.  The event lists below are transcribed from the method
bodies of `picoclaw_manager.py`, in program order. -/
structure LockedEv where
  locked : Bool
  acc : Access
deriving Repr, DecidableEq

/-- Events of `is_running` (source lines 59–64): inside `with self._lock`, read
`self._process` and, when it is set, `poll()` it. -/
def is_running_evs : List LockedEv :=
  [⟨true, .readF .handleF⟩, ⟨true, .livePoll⟩]

/-- Events of `status` (source lines 66–79): the `is_running` property runs under
the lock, but the reads that build the report — `self._process.pid`
(line 70), `self._started_at` (line 71), `self._log_tail[-20:]`
(line 74) and `self._started_at` again for the uptime (lines 76–77) —
happen after that lock has been released. -/
def status_evs : List LockedEv :=
  is_running_evs ++
    [⟨false, .readF .handleF⟩, ⟨false, .readF .startedAtF⟩,
     ⟨false, .readF .logBufF⟩, ⟨false, .readF .startedAtF⟩]

/-- Events of `start` (source lines 81–90) with `_start_process` (lines 111–161),
success path: precondition read, liveness poll, log clear, handle and
timestamp writes, all inside one `with self._lock`. -/
def start_evs : List LockedEv :=
  [⟨true, .readF .handleF⟩, ⟨true, .livePoll⟩, ⟨true, .writeF .logBufF⟩,
   ⟨true, .writeF .handleF⟩, ⟨true, .writeF .startedAtF⟩]

/-- Events of `stop` (source lines 92–100) with `_stop_process` (lines 163–191),
success path: all accesses inside one `with self._lock`. -/
def stop_evs : List LockedEv :=
  [⟨true, .readF .handleF⟩, ⟨true, .livePoll⟩, ⟨true, .readF .handleF⟩,
   ⟨true, .livePoll⟩, ⟨true, .writeF .handleF⟩, ⟨true, .writeF .startedAtF⟩]

/-- Events of `restart` (source lines 102–109): one `with self._lock` spans the
stop phase and the start phase. -/
def restart_evs : List LockedEv :=
  [⟨true, .readF .handleF⟩, ⟨true, .livePoll⟩, ⟨true, .readF .handleF⟩,
   ⟨true, .livePoll⟩, ⟨true, .writeF .handleF⟩, ⟨true, .writeF .startedAtF⟩,
   ⟨true, .writeF .logBufF⟩, ⟨true, .writeF .handleF⟩,
   ⟨true, .writeF .startedAtF⟩]

/-- One line handled by `_read_output` (source lines 196–200): append to
`self._log_tail`, check its length, pop its head — the method never
acquires `self._lock`. -/
def read_output_line_evs : List LockedEv :=
  [⟨false, .writeF .logBufF⟩, ⟨false, .readF .logBufF⟩,
   ⟨false, .writeF .logBufF⟩]

/-- Every event of the list happens while holding the mutex. -/
def lockedAll (evs : List LockedEv) : Bool := evs.all (fun e => e.locked)

/-! ## Theorems -/

theorem read_output_append_one (buf : List String) (l : List String) (x : String) :
    read_output buf (l ++ [x]) = read_output_step (read_output buf l) x := by
  simp [read_output]

/-- Closed form of the ring buffer: draining `l` into an empty buffer
leaves exactly the last 100 lines (all of them when there are fewer). -/
theorem read_output_nil_eq (l : List String) :
    read_output [] l = l.drop (l.length - 100) := by
  induction l using List.reverseRecOn with
  | nil => rfl
  | append_singleton l x ih =>
      rw [read_output_append_one, ih]
      simp only [read_output_step, max_log_lines]
      by_cases hl : l.length ≤ 99
      · rw [if_neg (by simp; omega)]
        have h0 : l.length - 100 = 0 := by omega
        rw [h0, List.drop_zero]
        have h1 : (l ++ [x]).length - 100 = 0 := by simp; omega
        rw [h1, List.drop_zero]
      · have hd : (l.drop (l.length - 100)).length = 100 := by
          simp; omega
        rw [if_pos (by rw [List.length_append, hd]; simp)]
        have h2 : (l ++ [x]).length - 100 = (l.length - 100) + 1 := by
          simp; omega
        rw [h2, List.drop_append_of_le_length (by omega),
          List.drop_append_of_le_length (by omega)]
        simp [List.drop_drop]

/-- C2: the log buffer never exceeds 100 entries at any point while
draining a 150-line output sequence (the buffer after the first `n` lines
is `read_output [] (lines.take n)`, since a fresh start clears the
buffer), and after all 150 lines it holds exactly the last 100 lines in
their original relative order. -/
theorem log_buffer_capacity_and_fifo (lines : List String) (n : Nat)
    (h : lines.length = 150) :
    (read_output [] (lines.take n)).length ≤ max_log_lines ∧
    read_output [] lines = lines.drop 50 := by
  constructor
  · rw [read_output_nil_eq]
    simp [max_log_lines]
    omega
  · rw [read_output_nil_eq, h]

set_option maxRecDepth 8000 in
/-- Witness for `log_buffer_capacity_and_fifo` at a concrete 150-line
sequence and `n = 120`. -/
theorem log_buffer_capacity_and_fifo_spot :
    sampleLines.length = 150 ∧
    ((read_output [] (sampleLines.take 120)).length ≤ max_log_lines ∧
      read_output [] sampleLines = sampleLines.drop 50) :=
  ⟨by decide, log_buffer_capacity_and_fifo sampleLines 120 (by decide)⟩

/-- C5: when a live child exists, `start` is a strict no-op returning
`success=false` with the already-running message (the source's Indonesian
`"PicoClaw gateway sudah berjalan"`) and the existing child's pid: no
state change and no OS process action beyond the liveness poll.
Consequently, after any `start` that leaves a handle that is still live, a
second `start` with no intervening `stop` returns `success=false` with the
same pid (in particular, when the first call succeeded, the pid the second
call reports is the pid the first call returned). -/
theorem start_when_running_noop (s : ManagerState) (env1 env2 : Env)
    (h : ProcHandle) (hp : (start s env1).state.process = some h)
    (hl2 : env2.liveNow = true) :
    (∀ h0, s.process = some h0 → env1.liveNow = true →
      start s env1 =
        ⟨s, ⟨false, msgAlreadyRunning, some h0.pid⟩, [OSAction.pollLive]⟩) ∧
    ((start s env1).result.success = true →
      (start s env1).result.pid = some h.pid) ∧
    start (start s env1).state env2 =
      ⟨(start s env1).state, ⟨false, msgAlreadyRunning, some h.pid⟩,
        [OSAction.pollLive]⟩ := by
  refine ⟨?_, ?_, ?_⟩
  · intro h0 hp0 hl1
    simp [start, hp0, hl1]
  · intro hsucc
    cases hs : s.process with
    | some h0 =>
        by_cases hl1 : env1.liveNow = true
        · simp [start, hs, hl1] at hsucc
        · cases hf : env1.isfile with
          | false => simp [start, hs, hl1, start_process, hf] at hsucc
          | true =>
              cases hsp : env1.spawn with
              | error e =>
                  simp [start, hs, hl1, start_process, hf, hsp] at hsucc
              | ok h2 =>
                  simp [start, hs, hl1, start_process, hf, hsp] at hp ⊢
                  simp [hp]
    | none =>
        cases hf : env1.isfile with
        | false => simp [start, hs, start_process, hf] at hsucc
        | true =>
            cases hsp : env1.spawn with
            | error e => simp [start, hs, start_process, hf, hsp] at hsucc
            | ok h2 =>
                simp [start, hs, start_process, hf, hsp] at hp ⊢
                simp [hp]
  · generalize hq : (start s env1).state = s1 at hp ⊢
    simp [start, hp, hl2]

/-- Witness for `start_when_running_noop`: a live child with pid 4242,
both calls seeing it live. -/
theorem start_when_running_noop_spot :
    ((start runningState envGrace).state.process = some ⟨4242⟩ ∧
      envGrace.liveNow = true) ∧
    (start (start runningState envGrace).state envGrace
      = ⟨(start runningState envGrace).state,
          ⟨false, msgAlreadyRunning, some 4242⟩, [OSAction.pollLive]⟩) :=
  ⟨⟨by decide, by decide⟩,
    (start_when_running_noop runningState envGrace envGrace ⟨4242⟩
      (by decide) (by decide)).2.2⟩

/-- C9: when no live child exists — no handle at all, or a handle whose
`poll()` reports an exit code — `stop` returns `success=true` with the
not-running message (`"PicoClaw gateway tidak sedang berjalan"`), changes
no state, and performs no signal, wait or spawn call: its trace holds at
most the liveness re-poll that the data-model invariants themselves
mandate on every call. -/
theorem stop_when_stopped_noop (s : ManagerState) (env : Env)
    (hnl : s.process = none ∨ env.liveNow = false) :
    (stop s env).state = s ∧
    (stop s env).result
      = { success := true, message := msgNotRunning, pid := none } ∧
    (stop s env).trace.all (fun a => !a.mutating) = true := by
  rcases hnl with hn | hl
  · simp [stop, hn]
  · cases hs : s.process with
    | none => simp [stop, hs]
    | some h => simp [stop, hs, hl, OSAction.mutating]

/-- Witness for `stop_when_stopped_noop`: a stale handle whose process
already exited externally. -/
theorem stop_when_stopped_noop_spot :
    (runningState.process = none ∨ envDead.liveNow = false) ∧
    ((stop runningState envDead).state = runningState ∧
      (stop runningState envDead).result
        = { success := true, message := msgNotRunning, pid := none } ∧
      (stop runningState envDead).trace.all (fun a => !a.mutating) = true) :=
  ⟨by decide, stop_when_stopped_noop runningState envDead (by decide)⟩

/-- Whether the stop sequence fails: SIGTERM delivery raises, or the
child survives the whole grace window and then SIGKILL delivery raises or
the 3-second reap wait times out. -/
def stopSeqFails (env : Env) : Bool :=
  (match env.term with | Except.error _ => true | Except.ok _ => false) ||
  ((graceExit env).isNone &&
    ((match env.kill with | Except.error _ => true | Except.ok _ => false) ||
     (match env.wait3 with | Except.error _ => true | Except.ok _ => false)))

/-- C7: whenever the stop sequence on a live child fails — an OS signal
call raises, or the forced kill produces no confirmed exit within its
3-second wait — `stop` returns `success=false` with a message carrying the
error (`"Gagal menghentikan process: <e>"`) and leaves the state exactly
as it was: handle, `started_at` and log untouched, no forged stopped
state. -/
theorem stop_failure_preserves_state (s : ManagerState) (env : Env)
    (h : ProcHandle) (hp : s.process = some h) (hl : env.liveNow = true)
    (hf : stopSeqFails env = true) :
    (stop s env).state = s ∧
    (stop s env).result.success = false ∧
    ∃ e, (stop s env).result.message = msgStopFail e := by
  cases ht : env.term with
  | error e =>
      refine ⟨?_, ?_, e, ?_⟩ <;> simp [stop, hp, hl, stop_process, ht]
  | ok u =>
      cases u
      simp [stopSeqFails, ht] at hf
      obtain ⟨hg, hkw⟩ := hf
      cases hk : env.kill with
      | error e =>
          refine ⟨?_, ?_, e, ?_⟩ <;>
            simp [stop, hp, hl, stop_process, ht, hg, hk]
      | ok u2 =>
          cases u2
          cases hw : env.wait3 with
          | error e =>
              refine ⟨?_, ?_, e, ?_⟩ <;>
                simp [stop, hp, hl, stop_process, ht, hg, hk, hw]
          | ok u3 => simp [hk, hw] at hkw

/-- Witness for `stop_failure_preserves_state`: the reap wait after
SIGKILL times out. -/
theorem stop_failure_preserves_state_spot :
    (runningState.process = some ⟨4242⟩ ∧ envWaitFail.liveNow = true ∧
      stopSeqFails envWaitFail = true) ∧
    ((stop runningState envWaitFail).state = runningState ∧
      (stop runningState envWaitFail).result.success = false ∧
      ∃ e, (stop runningState envWaitFail).result.message = msgStopFail e) :=
  ⟨⟨by decide, by decide, by decide⟩,
    stop_failure_preserves_state runningState envWaitFail ⟨4242⟩
      (by decide) (by decide) (by decide)⟩

theorem count_flatten_replicate {α : Type} [DecidableEq α] (a : α)
    (l : List α) (n : Nat) :
    ((List.replicate n l).flatten).count a = n * l.count a := by
  induction n with
  | zero => simp
  | succ n ih =>
      simp [List.replicate_succ, List.count_append, ih, Nat.succ_mul,
        Nat.add_comm]

theorem mem_graceTrace (a : OSAction) (i : Nat) (ha : a ∈ graceTrace i) :
    a = OSAction.pollLive ∨ a = OSAction.sleepMs 100 := by
  simp only [graceTrace] at ha
  rcases List.mem_append.mp ha with hf | hl
  · rcases List.mem_flatten.mp hf with ⟨l, hlm, hal⟩
    rcases List.eq_of_mem_replicate hlm with rfl
    simpa using hal
  · left
    simpa using hl

theorem mem_graceTraceFull (a : OSAction) (ha : a ∈ graceTraceFull) :
    a = OSAction.pollLive ∨ a = OSAction.sleepMs 100 := by
  simp only [graceTraceFull] at ha
  rcases List.mem_flatten.mp ha with ⟨l, hlm, hal⟩
  rcases List.eq_of_mem_replicate hlm with rfl
  simpa using hal

theorem graceTrace_count_sleep (i : Nat) :
    (graceTrace i).count (OSAction.sleepMs 100) = i := by
  simp [graceTrace, List.count_append, count_flatten_replicate,
    List.count_cons, List.count_nil]

theorem graceTrace_count_poll (i : Nat) :
    (graceTrace i).count OSAction.pollLive = i + 1 := by
  simp [graceTrace, List.count_append, count_flatten_replicate,
    List.count_cons, List.count_nil]

theorem graceTraceFull_count_sleep :
    graceTraceFull.count (OSAction.sleepMs 100) = 50 := by
  simp [graceTraceFull, count_flatten_replicate, List.count_cons,
    List.count_nil]

theorem graceTraceFull_count_poll :
    graceTraceFull.count OSAction.pollLive = 50 := by
  simp [graceTraceFull, count_flatten_replicate, List.count_cons,
    List.count_nil]

theorem graceExit_some_lt (env : Env) (i : Nat)
    (hg : graceExit env = some i) : i < 50 ∧ env.pollExit i = true := by
  refine ⟨?_, List.find?_some hg⟩
  have := List.mem_of_find?_eq_some hg
  simpa [List.mem_range] using this

theorem graceExit_none_iff (env : Env) :
    graceExit env = none ↔ ∀ i < 50, env.pollExit i = false := by
  simp [graceExit, List.find?_eq_none, List.mem_range]

/-- C1: `stop` on a live child first sends SIGTERM to the child's entire
process group, then polls liveness at most 50 times with 100ms sleeps in
between (at most 50 sleeps, and at most 51 polls counting the
precondition's liveness check); SIGKILL goes to the same group exactly
when all 50 grace polls still saw the child live, and is then followed by
the up-to-3-second reap wait; and whenever the exit is confirmed — a
grace-window poll saw it, or SIGKILL delivery and the reap wait both
succeeded — `_process` and `_started_at` are both cleared and the call
returns `success=true` with the stopped child's pid in the message. -/
theorem stop_live_escalation (s : ManagerState) (env : Env) (h : ProcHandle)
    (hp : s.process = some h) (hl : env.liveNow = true)
    (ht : env.term = Except.ok ()) :
    (∃ rest, (stop s env).trace
        = OSAction.pollLive :: OSAction.sigtermGroup h.pid :: rest) ∧
    (stop s env).trace.count (OSAction.sleepMs 100) ≤ 50 ∧
    (stop s env).trace.count OSAction.pollLive ≤ 51 ∧
    (OSAction.sigkillGroup h.pid ∈ (stop s env).trace
        ↔ ∀ i < 50, env.pollExit i = false) ∧
    (graceExit env = none → env.kill = Except.ok () →
        OSAction.waitChild 3 ∈ (stop s env).trace) ∧
    ((graceExit env).isSome = true ∨
        (env.kill = Except.ok () ∧ env.wait3 = Except.ok ()) →
      (stop s env).state.process = none ∧
      (stop s env).state.started_at = none ∧
      (stop s env).result = ⟨true, msgStopOk h.pid, none⟩) := by
  cases hg : graceExit env with
  | some i =>
      obtain ⟨hi, hpe⟩ := graceExit_some_lt env i hg
      have hout : stop s env =
          ⟨{ s with process := none, started_at := none },
            ⟨true, msgStopOk h.pid, none⟩,
            OSAction.pollLive :: OSAction.sigtermGroup h.pid :: graceTrace i⟩ := by
        simp [stop, hp, hl, stop_process, ht, hg]
      rw [hout]
      refine ⟨⟨graceTrace i, rfl⟩, ?_, ?_, ?_, ?_, ?_⟩
      · simp [List.count_cons, graceTrace_count_sleep]
        omega
      · simp [List.count_cons, graceTrace_count_poll]
        omega
      · constructor
        · intro hmem
          rcases List.mem_cons.mp hmem with hc | hmem
          · exact OSAction.noConfusion hc
          · rcases List.mem_cons.mp hmem with hc | hmem
            · exact OSAction.noConfusion hc
            · rcases mem_graceTrace _ _ hmem with hc | hc <;>
                exact OSAction.noConfusion hc
        · intro hall
          have := hall i hi
          rw [hpe] at this
          exact Bool.noConfusion this
      · intro hgn
        exact Option.noConfusion hgn
      · intro _
        exact ⟨rfl, rfl, rfl⟩
  | none =>
      have h50 : ∀ i < 50, env.pollExit i = false :=
        (graceExit_none_iff env).mp hg
      cases hk : env.kill with
      | error e =>
          have hout : stop s env =
              ⟨s, ⟨false, msgStopFail e, none⟩,
                OSAction.pollLive :: OSAction.sigtermGroup h.pid ::
                  (graceTraceFull ++ [OSAction.sigkillGroup h.pid])⟩ := by
            simp [stop, hp, hl, stop_process, ht, hg, hk]
          rw [hout]
          refine ⟨⟨_, rfl⟩, ?_, ?_, ?_, ?_, ?_⟩
          · simp [List.count_cons, List.count_append,
              graceTraceFull_count_sleep]
          · simp [List.count_cons, List.count_append,
              graceTraceFull_count_poll]
          · constructor
            · intro _
              exact h50
            · intro _
              simp
          · intro _ hko
            exact Except.noConfusion hko
          · intro hconf
            rcases hconf with hs1 | ⟨hko, -⟩
            · exact Bool.noConfusion hs1
            · exact Except.noConfusion hko
      | ok u =>
          cases u
          cases hw : env.wait3 with
          | error e =>
              have hout : stop s env =
                  ⟨s, ⟨false, msgStopFail e, none⟩,
                    OSAction.pollLive :: OSAction.sigtermGroup h.pid ::
                      (graceTraceFull ++
                        [OSAction.sigkillGroup h.pid, OSAction.waitChild 3])⟩ := by
                simp [stop, hp, hl, stop_process, ht, hg, hk, hw]
              rw [hout]
              refine ⟨⟨_, rfl⟩, ?_, ?_, ?_, ?_, ?_⟩
              · simp [List.count_cons, List.count_append,
                  graceTraceFull_count_sleep]
              · simp [List.count_cons, List.count_append,
                  graceTraceFull_count_poll]
              · constructor
                · intro _
                  exact h50
                · intro _
                  simp
              · intro _ _
                simp
              · intro hconf
                rcases hconf with hs1 | ⟨-, hwo⟩
                · exact Bool.noConfusion hs1
                · exact Except.noConfusion hwo
          | ok u3 =>
              cases u3
              have hout : stop s env =
                  ⟨{ s with process := none, started_at := none },
                    ⟨true, msgStopOk h.pid, none⟩,
                    OSAction.pollLive :: OSAction.sigtermGroup h.pid ::
                      (graceTraceFull ++
                        [OSAction.sigkillGroup h.pid, OSAction.waitChild 3])⟩ := by
                simp [stop, hp, hl, stop_process, ht, hg, hk, hw]
              rw [hout]
              refine ⟨⟨_, rfl⟩, ?_, ?_, ?_, ?_, ?_⟩
              · simp [List.count_cons, List.count_append,
                  graceTraceFull_count_sleep]
              · simp [List.count_cons, List.count_append,
                  graceTraceFull_count_poll]
              · constructor
                · intro _
                  exact h50
                · intro _
                  simp
              · intro _ _
                simp
              · intro _
                exact ⟨rfl, rfl, rfl⟩

/-- Witness for `stop_live_escalation`: live child pid 4242, SIGTERM ok,
grace poll sees the exit at iteration 2. -/
theorem stop_live_escalation_spot :
    (runningState.process = some ⟨4242⟩ ∧ envGrace.liveNow = true ∧
      envGrace.term = Except.ok ()) ∧
    ((∃ rest, (stop runningState envGrace).trace
        = OSAction.pollLive :: OSAction.sigtermGroup 4242 :: rest) ∧
      (stop runningState envGrace).trace.count (OSAction.sleepMs 100) ≤ 50 ∧
      (stop runningState envGrace).trace.count OSAction.pollLive ≤ 51 ∧
      (OSAction.sigkillGroup 4242 ∈ (stop runningState envGrace).trace
          ↔ ∀ i < 50, envGrace.pollExit i = false) ∧
      (graceExit envGrace = none → envGrace.kill = Except.ok () →
          OSAction.waitChild 3 ∈ (stop runningState envGrace).trace) ∧
      ((graceExit envGrace).isSome = true ∨
          (envGrace.kill = Except.ok () ∧ envGrace.wait3 = Except.ok ()) →
        (stop runningState envGrace).state.process = none ∧
        (stop runningState envGrace).state.started_at = none ∧
        (stop runningState envGrace).result = ⟨true, msgStopOk 4242, none⟩)) :=
  ⟨⟨rfl, rfl, rfl⟩,
    stop_live_escalation runningState envGrace ⟨4242⟩ rfl rfl rfl⟩

theorem start_process_sync (s : ManagerState) (env : Env)
    (h : s.process.isSome = s.started_at.isSome) :
    (start_process s env).state.process.isSome
      = (start_process s env).state.started_at.isSome := by
  cases hf : env.isfile with
  | false => simpa [start_process, hf] using h
  | true =>
      cases hsp : env.spawn with
      | error e => simpa [start_process, hf, hsp] using h
      | ok h2 => simp [start_process, hf, hsp]

theorem stop_process_sync (s : ManagerState) (env : Env) (hd : ProcHandle)
    (h : s.process.isSome = s.started_at.isSome) :
    (stop_process s env hd).state.process.isSome
      = (stop_process s env hd).state.started_at.isSome := by
  cases ht : env.term with
  | error e => simpa [stop_process, ht] using h
  | ok u =>
      cases u
      cases hg : graceExit env with
      | some i => simp [stop_process, ht, hg]
      | none =>
          cases hk : env.kill with
          | error e => simpa [stop_process, ht, hg, hk] using h
          | ok u2 =>
              cases u2
              cases hw : env.wait3 with
              | error e => simpa [stop_process, ht, hg, hk, hw] using h
              | ok u3 =>
                  cases u3
                  simp [stop_process, ht, hg, hk, hw]

theorem applyOp_sync (op : Op) (s : ManagerState) (env : Env)
    (h : s.process.isSome = s.started_at.isSome) :
    (applyOp op s env).process.isSome
      = (applyOp op s env).started_at.isSome := by
  cases op with
  | statusOp => simpa [applyOp] using h
  | startOp =>
      cases hs : s.process with
      | none => simpa [applyOp, start, hs] using start_process_sync s env h
      | some hd =>
          by_cases hl : env.liveNow = true
          · simpa [applyOp, start, hs, hl] using h
          · simpa [applyOp, start, hs, hl] using start_process_sync s env h
  | stopOp =>
      cases hs : s.process with
      | none => simpa [applyOp, stop, hs] using h
      | some hd =>
          by_cases hl : env.liveNow = true
          · simpa [applyOp, stop, hs, hl] using stop_process_sync s env hd h
          · simpa [applyOp, stop, hs, hl] using h
  | restartOp =>
      cases hs : s.process with
      | none => simpa [applyOp, restart, hs] using start_process_sync s env h
      | some hd =>
          by_cases hl : env.liveNow = true
          · have h1 := stop_process_sync s env hd h
            simpa [applyOp, restart, hs, hl] using
              start_process_sync (stop_process s env hd).state env h1
          · simpa [applyOp, restart, hs, hl] using start_process_sync s env h

/-- C8: in every state reachable from a fresh manager by any sequence of
`start`/`stop`/`restart`/`status` calls, `_process` and `_started_at` are
`None` together or set together: every operation sets and clears the two
fields jointly. -/
theorem handle_startedAt_sync (bin : String) (s : ManagerState)
    (hr : Reachable bin s) :
    s.process.isSome = s.started_at.isSome := by
  induction hr with
  | init => rfl
  | step s op env _ ih => exact applyOp_sync op s env ih

/-- Witness for `handle_startedAt_sync`: the state after one successful
`start` from a fresh manager (both fields set). -/
theorem handle_startedAt_sync_spot :
    Reachable "/b" (applyOp Op.startOp (initialState "/b") envGrace) ∧
    ((applyOp Op.startOp (initialState "/b") envGrace).process.isSome
      = (applyOp Op.startOp (initialState "/b") envGrace).started_at.isSome) :=
  ⟨Reachable.step _ Op.startOp envGrace Reachable.init,
    handle_startedAt_sync "/b" _
      (Reachable.step _ Op.startOp envGrace Reachable.init)⟩

theorem strContains_append_left (pre suf pat : String) (i : Nat)
    (hi : i + pat.toList.length ≤ pre.toList.length)
    (hm : (((pre.toList.drop i).take pat.toList.length) == pat.toList)
      = true) :
    strContains (pre ++ suf) pat = true := by
  have htl : (pre ++ suf).toList = pre.toList ++ suf.toList := by
    simp [String.toList]
  rw [strContains, List.any_eq_true]
  refine ⟨i, ?_, ?_⟩
  · rw [List.mem_range, htl, List.length_append]
    omega
  · rw [htl, List.drop_append_of_le_length (by omega),
      List.take_append_of_le_length
        (by rw [List.length_drop]; omega)]
    exact hm

/-- C3 counterexample: with a nonexistent binary path, `start` does
return `success=false`, but its message is the Indonesian
`"Binary tidak ditemukan: <path>"`, which does not contain the claimed
English substring `"not found"`; and for a path naming an existing but
non-executable file the `os.path.isfile` check passes, so `start` takes
the launch-failure branch instead — clearing the log buffer, a state
change the claim rules out. -/
theorem start_missing_binary_counterexample :
    ((start (initialState "/nonexistent/picoclaw") envNoFile).result.success
        = false ∧
      strContains
        (start (initialState "/nonexistent/picoclaw") envNoFile).result.message
        "not found" = false) ∧
    ((start stoppedWithLog envSpawnFail).state.log_tail = [] ∧
      stoppedWithLog.log_tail = ["old line"]) := by
  decide

/-- C3 amended: for every `binaryPath` that does not name an existing
*file* (the code checks `os.path.isfile`, not executability), `start`
from a state with no live child returns `success=false` with the message
`"Binary tidak ditemukan: <path>"` — which contains `"tidak ditemukan"`,
Indonesian for "not found", rather than the English words — performs no
process action, changes no supervisor state, and a `status` call
immediately afterwards (same liveness observation) reports
`running=false`. -/
theorem start_missing_binary (s : ManagerState) (env env2 : Env)
    (hnl : s.process = none ∨ env.liveNow = false)
    (hf : env.isfile = false) (hl2 : env2.liveNow = env.liveNow) :
    (start s env).state = s ∧
    (start s env).result
      = ⟨false, msgBinaryNotFound s.picoclaw_bin, none⟩ ∧
    (start s env).trace.all (fun a => !a.mutating) = true ∧
    strContains (msgBinaryNotFound s.picoclaw_bin) "tidak ditemukan"
      = true ∧
    (status (start s env).state env2).running = false := by
  have hcontains :
      strContains (msgBinaryNotFound s.picoclaw_bin) "tidak ditemukan"
        = true := by
    exact strContains_append_left "Binary tidak ditemukan: "
      s.picoclaw_bin "tidak ditemukan" 7 (by decide) (by decide)
  rcases hnl with hn | hl
  · refine ⟨?_, ?_, ?_, hcontains, ?_⟩ <;>
      simp [start, hn, start_process, hf, status, is_running,
        OSAction.mutating]
  · cases hs : s.process with
    | none =>
        refine ⟨?_, ?_, ?_, hcontains, ?_⟩ <;>
          simp [start, hs, start_process, hf, status, is_running,
            OSAction.mutating]
    | some h =>
        rw [show env.liveNow = false from hl] at hl2
        refine ⟨?_, ?_, ?_, hcontains, ?_⟩ <;>
          simp [start, hs, hl, start_process, hf, status, is_running,
            OSAction.mutating, hl2]

/-- Witness for `start_missing_binary`: fresh manager, missing binary. -/
theorem start_missing_binary_spot :
    (((initialState "/nonexistent/picoclaw").process = none ∨
        envNoFile.liveNow = false) ∧
      envNoFile.isfile = false) ∧
    ((start (initialState "/nonexistent/picoclaw") envNoFile).state
        = initialState "/nonexistent/picoclaw" ∧
      (start (initialState "/nonexistent/picoclaw") envNoFile).result
        = ⟨false, msgBinaryNotFound "/nonexistent/picoclaw", none⟩ ∧
      (start (initialState "/nonexistent/picoclaw") envNoFile).trace.all
        (fun a => !a.mutating) = true ∧
      strContains (msgBinaryNotFound "/nonexistent/picoclaw")
        "tidak ditemukan" = true ∧
      (status (start (initialState "/nonexistent/picoclaw") envNoFile).state
        envNoFile).running = false) :=
  ⟨⟨Or.inl rfl, rfl⟩,
    start_missing_binary (initialState "/nonexistent/picoclaw")
      envNoFile envNoFile (Or.inl rfl) rfl rfl⟩

/-- C4 counterexample: a handle whose process exited externally
(`poll()` returns an exit code, so `is_running` observes `false`): `stop`
returns the not-running result but leaves the stale handle in place —
the supervisor still holds a handle for the exited child after the
operation completes. -/
theorem stale_handle_counterexample :
    is_running runningState envDead.liveNow = false ∧
    (stop runningState envDead).state.process = some ⟨4242⟩ := by
  decide

/-- C4 amended: no operation clears the handle upon observing an
external exit; operations merely treat the stale handle as not running.
With a handle present and the OS reporting the child exited: `status`
reports `running=false` (and mutates nothing, being read-only); `stop`
returns the not-running success result with the whole state — stale
handle included — unchanged; and `start` proceeds to the launch attempt,
so the stale handle survives a failed launch and is only ever replaced by
a successful spawn. -/
theorem stale_handle_behavior (s : ManagerState) (env : Env)
    (h : ProcHandle) (hp : s.process = some h) (hl : env.liveNow = false) :
    (status s env).running = false ∧
    (stop s env).state = s ∧
    (stop s env).result = ⟨true, msgNotRunning, none⟩ ∧
    (start s env).state.process =
      (if env.isfile then
        match env.spawn with
        | Except.ok h2 => some h2
        | Except.error _ => some h
      else some h) := by
  refine ⟨?_, ?_, ?_, ?_⟩
  · simp [status, is_running, hp, hl]
  · simp [stop, hp, hl]
  · simp [stop, hp, hl]
  · cases hf : env.isfile with
    | false => simp [start, hp, hl, start_process, hf]
    | true =>
        cases hsp : env.spawn with
        | error e => simp [start, hp, hl, start_process, hf, hsp]
        | ok h2 => simp [start, hp, hl, start_process, hf, hsp]

/-- Witness for `stale_handle_behavior`: stale handle 4242; the launch
oracle would spawn pid 5151, which replaces the stale handle. -/
theorem stale_handle_behavior_spot :
    (runningState.process = some ⟨4242⟩ ∧ envDead.liveNow = false) ∧
    ((status runningState envDead).running = false ∧
      (stop runningState envDead).state = runningState ∧
      (stop runningState envDead).result = ⟨true, msgNotRunning, none⟩ ∧
      (start runningState envDead).state.process = some ⟨5151⟩) :=
  ⟨⟨rfl, rfl⟩, by
    have h := stale_handle_behavior runningState envDead ⟨4242⟩ rfl rfl
    exact ⟨h.1, h.2.1, h.2.2.1, by rw [h.2.2.2]; rfl⟩⟩

/-- C6 counterexample: from a state with no live child, `restart`
performs no 1-second cooldown at all — `time.sleep(1)` sits inside the
only-if-running branch — although the claim requires the cooldown before
the start sequence "when already stopped" too; the start phase still runs
(and here succeeds). -/
theorem restart_counterexample :
    (restart (initialState "/b") envGrace).trace.count
        (OSAction.sleepMs 1000) = 0 ∧
    (restart (initialState "/b") envGrace).result.success = true := by
  decide

/-- C6 amended: `restart` performs both phases inside one mutex
acquisition (modelled as a single atomic transition); when a live child
exists it runs the stop sequence and then always sleeps 1 second — even
when the stop sequence failed, whose result is discarded — before running
the start sequence on the post-stop state and returning that start
result; when no live child exists there is no cooldown at all and the
start sequence runs immediately. -/
theorem restart_cooldown (s : ManagerState) (env : Env) (h : ProcHandle) :
    (s.process = none → restart s env = start_process s env) ∧
    (s.process = some h → env.liveNow = false →
      (restart s env).state = (start_process s env).state ∧
      (restart s env).result = (start_process s env).result ∧
      (restart s env).trace.count (OSAction.sleepMs 1000) = 0) ∧
    (s.process = some h → env.liveNow = true →
      restart s env =
        ⟨(start_process (stop_process s env h).state env).state,
          (start_process (stop_process s env h).state env).result,
          OSAction.pollLive :: (stop_process s env h).trace
            ++ OSAction.sleepMs 1000 ::
              (start_process (stop_process s env h).state env).trace⟩) := by
  refine ⟨?_, ?_, ?_⟩
  · intro hn
    simp [restart, hn]
  · intro hp hl
    have hr : restart s env =
        ⟨(start_process s env).state, (start_process s env).result,
          OSAction.pollLive :: (start_process s env).trace⟩ := by
      simp [restart, hp, hl]
    rw [hr]
    refine ⟨rfl, rfl, ?_⟩
    cases hf : env.isfile with
    | false => simp [start_process, hf, List.count_cons]
    | true =>
        cases hsp : env.spawn with
        | error e => simp [start_process, hf, hsp, List.count_cons]
        | ok h2 => simp [start_process, hf, hsp, List.count_cons]
  · intro hp hl
    simp [restart, hp, hl]

/-- Witness for `restart_cooldown`: live child 4242, stop succeeds in the
grace window, new child 5151 spawned after the cooldown. -/
theorem restart_cooldown_spot :
    (runningState.process = some ⟨4242⟩ ∧ envGrace.liveNow = true) ∧
    restart runningState envGrace =
      ⟨(start_process (stop_process runningState envGrace ⟨4242⟩).state
          envGrace).state,
        (start_process (stop_process runningState envGrace ⟨4242⟩).state
          envGrace).result,
        OSAction.pollLive ::
          (stop_process runningState envGrace ⟨4242⟩).trace
          ++ OSAction.sleepMs 1000 ::
            (start_process (stop_process runningState envGrace ⟨4242⟩).state
              envGrace).trace⟩ :=
  ⟨⟨rfl, rfl⟩,
    (restart_cooldown runningState envGrace ⟨4242⟩).2.2 rfl rfl⟩

/-- C10 counterexample: the claim fails on the code in two places —
`status` reads `_process` (for the pid), `_started_at` and `_log_tail`
only after releasing the lock it held inside `is_running`, and the
output-capture task's per-line append and eviction touch `_log_tail`
without ever acquiring the mutex. -/
theorem mutex_coverage_counterexample :
    lockedAll status_evs = false ∧
    lockedAll read_output_line_evs = false := by
  decide

/-- C10 amended: `start`, `stop` and `restart` perform all their shared
state accesses under the one shared mutex, and `is_running`'s
handle-read-plus-liveness-poll holds it too; `status`, however, holds the
mutex only for that `is_running` prefix and performs its remaining reads
of handle, timestamp and log buffer outside it, and the output-capture
task appends to and evicts from the log buffer with no locking at all
(the host runtime's atomic list operations are what make that safe). -/
theorem mutex_coverage_actual :
    lockedAll start_evs = true ∧ lockedAll stop_evs = true ∧
    lockedAll restart_evs = true ∧ lockedAll is_running_evs = true ∧
    status_evs.take is_running_evs.length = is_running_evs ∧
    (status_evs.drop is_running_evs.length).all (fun e => !e.locked)
      = true ∧
    read_output_line_evs.all (fun e => !e.locked) = true := by
  decide

end PicoClaw
